import Mathlib

/- Verification development for the tcdb hash-database binding (src/tcdb/hdb.py).
   The binding forwards every call to the native engine through the tc module and
   serializes Python objects through the util module; those two modules are not
   under src/, so their behavior is modelled from the specification (spec.md):
   each such definition carries a doc comment starting with "Modelled from the
   spec:".  The binding-level definitions in the hdb namespace are translated
   line by line from src/tcdb/hdb.py. -/

/-- Byte strings: keys, values and serialized objects are sequences of bytes. -/
abbrev Bytes := List Nat

/-- Error kinds of the engine, from the specification's error-handling design
(spec.md section 7, plus AlreadyActive from section 4.6). -/
inductive ECode where
  | success
  | notFound
  | alreadyExists
  | alreadyActive
  | typeMismatch
  | overflow
  | ioError
deriving DecidableEq

/-- A Python-level failure of the binding: a raised KeyError (hdb._get) or a
raised tc.TCException carrying the handle's error code. -/
inductive PyErr where
  | keyError (k : Bytes)
  | tcException (e : ECode)
deriving DecidableEq

/-- Outcome of one binding call: the returned value, or a raised exception. -/
inductive Res (α : Type) where
  | ok (a : α)
  | exn (e : PyErr)
deriving DecidableEq

/-- Association-list lookup over the stored records (first binding wins). -/
def lookupAssoc : List (Bytes × Bytes) → Bytes → Option Bytes
  | [], _ => none
  | kv :: rest, k => if kv.1 = k then some kv.2 else lookupAssoc rest k

/-- Association-list upsert: overwrite the first binding of the key in place,
or append a fresh binding at the end of the chain. -/
def putAssoc : List (Bytes × Bytes) → Bytes → Bytes → List (Bytes × Bytes)
  | [], k, v => [(k, v)]
  | kv :: rest, k, v => if kv.1 = k then (k, v) :: rest else kv :: putAssoc rest k v

/-- Association-list removal of the first binding of the key. -/
def outAssoc : List (Bytes × Bytes) → Bytes → List (Bytes × Bytes)
  | [], _ => []
  | kv :: rest, k => if kv.1 = k then rest else kv :: outAssoc rest k

/-- Index of the record holding the key, in storage (chain) order. -/
def idxOfKey : List (Bytes × Bytes) → Bytes → Option Nat
  | [], _ => none
  | kv :: rest, k => if kv.1 = k then some 0 else (idxOfKey rest k).map (· + 1)

/-- One undo record of the transaction log: the key together with its
before-image (none when the key was absent before the mutation). -/
abbrev UndoEntry := Bytes × Option Bytes

/-- Replay one undo record: restore the prior binding, or delete the key that
the logged mutation introduced. -/
def undoOne (l : List (Bytes × Bytes)) (e : UndoEntry) : List (Bytes × Bytes) :=
  match e.2 with
  | some w => putAssoc l e.1 w
  | none => outAssoc l e.1

/-- State of one hash-database handle: the stored records in chain order, the
transaction undo log (some log while a transaction is active, most recent entry
first), the shared iterator cursor, and the handle's last error code. -/
structure DB where
  recs : List (Bytes × Bytes)
  tranLog : Option (List UndoEntry)
  cursor : Option Nat
  ecode : ECode
deriving DecidableEq

/-- Outcome of opening a database file (spec.md section 6 open contract). -/
inductive OpenOutcome where
  | openedExisting
  | createdNew
  | failed (e : ECode)
deriving DecidableEq

/- Open mode constants, from src/tcdb/hdb.py lines 48-54. -/

def OREADER : Nat := 1 <<< 0
def OWRITER : Nat := 1 <<< 1
def OCREAT : Nat := 1 <<< 2
def OTRUNC : Nat := 1 <<< 3
def ONOLCK : Nat := 1 <<< 4
def OLCKNB : Nat := 1 <<< 5
def OTSYNC : Nat := 1 <<< 6

namespace util

/-- Modelled from the spec: the util module is not under src/; the spec treats
object serialization as "an opaque byte-encoding contract" whose core contract
is "byte-string in, byte-string out", so it is modelled as the identity on byte
strings. -/
def serialize_obj (b : Bytes) : Bytes := b

/-- Modelled from the spec: inverse of serialize_obj (util module not under
src/); identity on byte strings. -/
def deserialize_obj (b : Bytes) : Bytes := b

/-- Modelled from the spec: elementwise deserialization of a native list of
byte strings (util module not under src/). -/
def deserialize_objs (l : List Bytes) : List Bytes := l.map deserialize_obj

end util

namespace tc

/-- Modelled from the spec: the fixed-width binary numeric encoding of addint
records (4-byte little-endian two's-complement; tc/util modules not under
src/, spec.md section 6 typed-value boundary). -/
def encodeInt (n : Int) : Bytes :=
  let m := (n % (2 ^ 32)).toNat
  [m % 256, m / 256 % 256, m / 256 ^ 2 % 256, m / 256 ^ 3 % 256]

/-- Modelled from the spec: decoding of a 4-byte integer record; any record of
another width is not an integer record (TypeMismatch at the caller). -/
def decodeInt : Bytes → Option Int
  | [b0, b1, b2, b3] =>
    let m : Nat := b0 + 256 * b1 + 256 ^ 2 * b2 + 256 ^ 3 * b3
    some (if m < 2 ^ 31 then (m : Int) else (m : Int) - 2 ^ 32)
  | _ => none

/-- Modelled from the spec: while a transaction is Active, "every mutation
... appends an undo record to the log before applying the change in place"
(spec.md section 4.6); outside a transaction the log stays absent. -/
def logMut (db : DB) (k : Bytes) : Option (List UndoEntry) :=
  db.tranLog.map (fun log => (k, lookupAssoc db.recs k) :: log)

/-- Modelled from the spec: hdb_get of the tc module (not under src/);
"get(key) -> value: fails with NotFound if absent" — a NULL return models the
absent key. -/
def hdb_get (db : DB) (k : Bytes) : Option Bytes :=
  lookupAssoc db.recs k

/-- Modelled from the spec: hdb_put of the tc module (not under src/);
"put(key, value): unconditional upsert", logging an undo record while a
transaction is active. -/
def hdb_put (db : DB) (k v : Bytes) : DB × Bool :=
  ({db with recs := putAssoc db.recs k v, tranLog := logMut db k}, true)

/-- Modelled from the spec: hdb_putkeep of the tc module (not under src/);
"putkeep(key, value) -> bool: inserts only if key absent; returns false
without modification if present (no error)". -/
def hdb_putkeep (db : DB) (k v : Bytes) : DB × Bool :=
  match lookupAssoc db.recs k with
  | some _ => (db, false)
  | none => ({db with recs := putAssoc db.recs k v, tranLog := logMut db k}, true)

/-- Modelled from the spec: hdb_out of the tc module (not under src/);
"out(key): removes the record; fails with NotFound if absent". -/
def hdb_out (db : DB) (k : Bytes) : DB × Bool :=
  match lookupAssoc db.recs k with
  | some _ => ({db with recs := outAssoc db.recs k, tranLog := logMut db k}, true)
  | none => ({db with ecode := ECode.notFound}, false)

/-- Modelled from the spec: hdb_rnum of the tc module (not under src/): the
record count kept in the header. -/
def hdb_rnum (db : DB) : Nat := db.recs.length

/-- Modelled from the spec: hdb_vanish of the tc module (not under src/);
"vanish(): resets bucket directory to all-empty ...; record count reset to
zero", and the iterator cursor is invalidated (spec.md section 4.5). -/
def hdb_vanish (db : DB) : DB × Bool :=
  ({db with recs := [], cursor := none}, true)

/-- Modelled from the spec: hdb_fwmkeys of the tc module (not under src/);
"fwmkeys(... ) -> ordered sequence of keys: scans opportunistically
(chain-order) for keys whose byte-... matches; returns empty sequence, never
an error, when nothing matches" — so the returned native list is never NULL. -/
def hdb_fwmkeys (db : DB) (pre : Bytes) : Option (List Bytes) :=
  some ((db.recs.map Prod.fst).filter (fun k => pre.isPrefixOf k))

/-- Modelled from the spec: hdb_addint of the tc module (not under src/);
"addint(key, delta) -> new_value: atomic read-modify-write on a numeric
record; fails with TypeMismatch if the stored record is not the matching
numeric width, fails with Overflow if the integer addition would overflow the
stored width. If key absent, the delta becomes the initial value
(create-on-demand)." A falsy (NULL) second component models failure. -/
def hdb_addint (db : DB) (k : Bytes) (num : Int) : DB × Option Int :=
  match lookupAssoc db.recs k with
  | none =>
    ({db with recs := putAssoc db.recs k (encodeInt num), tranLog := logMut db k}, some num)
  | some bs =>
    match decodeInt bs with
    | none => ({db with ecode := ECode.typeMismatch}, none)
    | some n =>
      if n + num < -(2 ^ 31) ∨ 2 ^ 31 ≤ n + num then
        ({db with ecode := ECode.overflow}, none)
      else
        ({db with recs := putAssoc db.recs k (encodeInt (n + num)), tranLog := logMut db k},
          some (n + num))

/-- Modelled from the spec: hdb_tranbegin of the tc module (not under src/);
"begin() fails with AlreadyActive if a transaction is already open on this
handle" (spec.md section 4.6), else opens an empty undo log. -/
def hdb_tranbegin (db : DB) : DB × Bool :=
  match db.tranLog with
  | some _ => ({db with ecode := ECode.alreadyActive}, false)
  | none => ({db with tranLog := some []}, true)

/-- Modelled from the spec: hdb_trancommit of the tc module (not under src/);
"commit() discards the log and releases the lock", keeping the applied
changes. -/
def hdb_trancommit (db : DB) : DB × Bool :=
  match db.tranLog with
  | some _ => ({db with tranLog := none}, true)
  | none => ({db with ecode := ECode.alreadyActive}, false)

/-- Modelled from the spec: hdb_tranabort of the tc module (not under src/);
"abort() replays the log in reverse to restore prior byte images" — the log is
kept most recent entry first, so a left fold replays it in reverse
chronological order. -/
def hdb_tranabort (db : DB) : DB × Bool :=
  match db.tranLog with
  | some log => ({db with recs := log.foldl undoOne db.recs, tranLog := none}, true)
  | none => ({db with ecode := ECode.alreadyActive}, false)

/-- Modelled from the spec: hdb_iterinit of the tc module (not under src/);
"iterinit() resets a shared cursor to the first non-empty bucket's chain
head" (spec.md section 4.5). -/
def hdb_iterinit (db : DB) : DB × Bool :=
  ({db with cursor := some 0}, true)

/-- Modelled from the spec: hdb_iternext of the tc module (not under src/);
advances the shared cursor through the records in chain order and returns the
key there, or NULL at the end (spec.md section 4.5). -/
def hdb_iternext (db : DB) : DB × Option Bytes :=
  match db.cursor with
  | none => ({db with ecode := ECode.notFound}, none)
  | some i =>
    match db.recs[i]? with
    | some kv => ({db with cursor := some (i + 1)}, some kv.1)
    | none => ({db with cursor := none, ecode := ECode.notFound}, none)

/-- Modelled from the spec: hdb_iterinit2 of the tc module (not under src/);
"iterinit2(key) jumps the cursor to (or just past) the position of a specific
key, used to answer does-this-key-exist queries" (spec.md section 4.5); false
with NotFound when the key is absent, leaving the cursor alone. -/
def hdb_iterinit2 (db : DB) (k : Bytes) : DB × Bool :=
  match idxOfKey db.recs k with
  | some i => ({db with cursor := some i}, true)
  | none => ({db with ecode := ECode.notFound}, false)

/-- Modelled from the spec: hdb_open of the tc module (not under src/);
"Creating a new file requires writer+creat; opening a nonexistent file
without creat fails with NotFound" (spec.md section 6).  With creat but
without writer nothing can be created, and the spec names NotFound only for
the without-creat case, so that failure is modelled as an i/o failure. -/
def hdb_open (fileExists : Bool) (omode : Nat) : OpenOutcome :=
  if fileExists then OpenOutcome.openedExisting
  else if omode.testBit 2 then
    if omode.testBit 1 then OpenOutcome.createdNew
    else OpenOutcome.failed ECode.ioError
  else OpenOutcome.failed ECode.notFound

/-- Modelled from the spec: hdb_ecode of the tc module (not under src/): the
handle's last error code, read by the binding when it raises TCException. -/
def hdb_ecode (db : DB) : ECode := db.ecode

end tc

namespace hdb

/-- hdb.put (src/tcdb/hdb.py lines 123-130): serialize key and value, call
tc.hdb_put, raise TCException if the engine reports failure, else return the
result. -/
def put (db : DB) (key value : Bytes) : DB × Res Bool :=
  match tc.hdb_put db (util.serialize_obj key) (util.serialize_obj value) with
  | (db2, true) => (db2, Res.ok true)
  | (db2, false) => (db2, Res.exn (PyErr.tcException (tc.hdb_ecode db2)))

/-- hdb.putkeep (src/tcdb/hdb.py lines 162-167): serialize key and value,
call tc.hdb_putkeep and return its boolean result without any error check. -/
def putkeep (db : DB) (key value : Bytes) : DB × Bool :=
  tc.hdb_putkeep db (util.serialize_obj key) (util.serialize_obj value)

/-- hdb._get (src/tcdb/hdb.py lines 307-313) composed with hdb.get (lines
280-283): serialize the key, call tc.hdb_get, raise KeyError(key) on a NULL
value, else deserialize the value. -/
def get (db : DB) (key : Bytes) : Res Bytes :=
  match tc.hdb_get db (util.serialize_obj key) with
  | some v => Res.ok (util.deserialize_obj v)
  | none => Res.exn (PyErr.keyError key)

/-- hdb.out (src/tcdb/hdb.py lines 268-274): serialize the key, call
tc.hdb_out, raise TCException on failure. -/
def out (db : DB) (key : Bytes) : DB × Res Bool :=
  match tc.hdb_out db (util.serialize_obj key) with
  | (db2, true) => (db2, Res.ok true)
  | (db2, false) => (db2, Res.exn (PyErr.tcException (tc.hdb_ecode db2)))

/-- hdb.__len__ (src/tcdb/hdb.py lines 472-474): the engine's record count. -/
def len (db : DB) : Nat := tc.hdb_rnum db

/-- hdb.vanish (src/tcdb/hdb.py lines 418-423): call tc.hdb_vanish, raise
TCException on failure. -/
def vanish (db : DB) : DB × Res Bool :=
  match tc.hdb_vanish db with
  | (db2, true) => (db2, Res.ok true)
  | (db2, false) => (db2, Res.exn (PyErr.tcException (tc.hdb_ecode db2)))

/-- hdb.fwmkeys (src/tcdb/hdb.py lines 373-379): serialize the argument, call
tc.hdb_fwmkeys, raise TCException when the returned native list is NULL, else
deserialize every key in it. -/
def fwmkeys (db : DB) (pre : Bytes) : DB × Res (List Bytes) :=
  match tc.hdb_fwmkeys db (util.serialize_obj pre) with
  | some l => (db, Res.ok (util.deserialize_objs l))
  | none => (db, Res.exn (PyErr.tcException (tc.hdb_ecode db)))

/-- hdb.add_int (src/tcdb/hdb.py lines 381-388): serialize the key, call
tc.hdb_addint, and raise TCException when the result is falsy — in Python
that check is "if not result", which is also true for the integer 0. -/
def add_int (db : DB) (key : Bytes) (num : Int) : DB × Res Int :=
  match tc.hdb_addint db (util.serialize_obj key) num with
  | (db2, none) => (db2, Res.exn (PyErr.tcException (tc.hdb_ecode db2)))
  | (db2, some n) =>
    if n = 0 then (db2, Res.exn (PyErr.tcException (tc.hdb_ecode db2)))
    else (db2, Res.ok n)

/-- hdb.tranbegin (src/tcdb/hdb.py lines 432-437): call tc.hdb_tranbegin,
raise TCException on failure. -/
def tranbegin (db : DB) : DB × Res Bool :=
  match tc.hdb_tranbegin db with
  | (db2, true) => (db2, Res.ok true)
  | (db2, false) => (db2, Res.exn (PyErr.tcException (tc.hdb_ecode db2)))

/-- hdb.trancommit (src/tcdb/hdb.py lines 439-444): call tc.hdb_trancommit,
raise TCException on failure. -/
def trancommit (db : DB) : DB × Res Bool :=
  match tc.hdb_trancommit db with
  | (db2, true) => (db2, Res.ok true)
  | (db2, false) => (db2, Res.exn (PyErr.tcException (tc.hdb_ecode db2)))

/-- hdb.tranabort (src/tcdb/hdb.py lines 446-451): call tc.hdb_tranabort,
raise TCException on failure. -/
def tranabort (db : DB) : DB × Res Bool :=
  match tc.hdb_tranabort db with
  | (db2, true) => (db2, Res.ok true)
  | (db2, false) => (db2, Res.exn (PyErr.tcException (tc.hdb_ecode db2)))

/-- hdb.__enter__ (src/tcdb/hdb.py lines 453-456): begin the transaction
(propagating its exception, if any) and return the handle. -/
def enterW (db : DB) : DB × Res Unit :=
  match tranbegin db with
  | (db2, Res.ok _) => (db2, Res.ok ())
  | (db2, Res.exn e) => (db2, Res.exn e)

/-- hdb.__exit__ (src/tcdb/hdb.py lines 458-463): commit the transaction when
the block exited without an exception (type is None), else abort it. -/
def exitW (db : DB) (ty : Option Unit) : DB × Res Bool :=
  match ty with
  | none => trancommit db
  | some _ => tranabort db

/-- hdb.__contains__ (src/tcdb/hdb.py lines 629-632): serialize the key and
return the boolean result of tc.hdb_iterinit2 on it. -/
def contains (db : DB) (key : Bytes) : DB × Bool :=
  tc.hdb_iterinit2 db (util.serialize_obj key)

/-- Drain of the iterator underlying hdb.iterkeys (src/tcdb/hdb.py lines
328-337): repeatedly call tc.hdb_iternext, deserializing each key, until the
engine returns NULL; the fuel argument bounds the loop. -/
def drainKeys : DB → Nat → List Bytes
  | _, 0 => []
  | db, n + 1 =>
    match tc.hdb_iternext db with
    | (db2, some ck) => util.deserialize_obj ck :: drainKeys db2 n
    | (_, none) => []

/-- hdb.keys = list(hdb.iterkeys()) (src/tcdb/hdb.py lines 324-337): call
tc.hdb_iterinit (raising TCException on failure) and drain the cursor; the
record count bounds the number of iternext steps that can yield a key. -/
def keysList (db : DB) : Res (List Bytes) :=
  match tc.hdb_iterinit db with
  | (db2, true) => Res.ok (drainKeys db2 (tc.hdb_rnum db2))
  | (db2, false) => Res.exn (PyErr.tcException (tc.hdb_ecode db2))

/-- hdb.open (src/tcdb/hdb.py lines 89-110), restricted to the path/omode
arguments the open contract depends on: call tc.hdb_open and raise
TCException when it fails.  The file-system is abstracted to whether the path
names an existing file. -/
def openDb (fileExists : Bool) (omode : Nat) : Res Unit :=
  match tc.hdb_open fileExists omode with
  | OpenOutcome.failed e => Res.exn (PyErr.tcException e)
  | _ => Res.ok ()

/-- hdb.open called with no explicit mode (src/tcdb/hdb.py line 89): the
declared default is omode=OWRITER|OCREAT. -/
def openDbDefault (fileExists : Bool) : Res Unit :=
  openDb fileExists (OWRITER ||| OCREAT)

/-- Sequence of hdb.put calls, threading the handle state. -/
def putList (db : DB) (kvs : List (Bytes × Bytes)) : DB :=
  kvs.foldl (fun d kv => (put d kv.1 kv.2).1) db

end hdb

/- ------------------------------------------------------------------ -/
/- Helper lemmas about the association-list record store.             -/
/- ------------------------------------------------------------------ -/

theorem lookup_putAssoc_self (l : List (Bytes × Bytes)) (k v : Bytes) :
    lookupAssoc (putAssoc l k v) k = some v := by
  induction l with
  | nil => simp [putAssoc, lookupAssoc]
  | cons kv rest ih =>
    by_cases h : kv.1 = k
    · simp [putAssoc, h, lookupAssoc]
    · simp [putAssoc, h, lookupAssoc, ih]

theorem lookup_putAssoc_ne (l : List (Bytes × Bytes)) (k k2 v : Bytes) (h : k2 ≠ k) :
    lookupAssoc (putAssoc l k v) k2 = lookupAssoc l k2 := by
  have h2 : k ≠ k2 := Ne.symm h
  induction l with
  | nil => simp [putAssoc, lookupAssoc, h2]
  | cons kv rest ih =>
    by_cases hk : kv.1 = k
    · subst hk
      simp [putAssoc, lookupAssoc, h2]
    · by_cases hk2 : kv.1 = k2
      · simp [putAssoc, hk, lookupAssoc, hk2, h]
      · simp [putAssoc, hk, lookupAssoc, hk2, ih]

theorem putAssoc_restore (l : List (Bytes × Bytes)) (k v w : Bytes)
    (h : lookupAssoc l k = some w) :
    putAssoc (putAssoc l k v) k w = l := by
  induction l with
  | nil => simp [lookupAssoc] at h
  | cons kv rest ih =>
    obtain ⟨a, b⟩ := kv
    by_cases hk : a = k
    · subst hk
      have hb : b = w := by simpa [lookupAssoc] using h
      subst hb
      simp [putAssoc]
    · have h2 : lookupAssoc rest k = some w := by simpa [lookupAssoc, hk] using h
      simp [putAssoc, hk, ih h2]

theorem outAssoc_putAssoc_new (l : List (Bytes × Bytes)) (k v : Bytes)
    (h : lookupAssoc l k = none) :
    outAssoc (putAssoc l k v) k = l := by
  induction l with
  | nil => simp [putAssoc, outAssoc]
  | cons kv rest ih =>
    obtain ⟨a, b⟩ := kv
    by_cases hk : a = k
    · simp [lookupAssoc, hk] at h
    · have h2 : lookupAssoc rest k = none := by simpa [lookupAssoc, hk] using h
      simp [putAssoc, hk, outAssoc, ih h2]

theorem undoOne_putAssoc (l : List (Bytes × Bytes)) (k v : Bytes) :
    undoOne (putAssoc l k v) (k, lookupAssoc l k) = l := by
  cases h : lookupAssoc l k with
  | none => simpa [undoOne] using outAssoc_putAssoc_new l k v h
  | some w => simpa [undoOne] using putAssoc_restore l k v w h

theorem idxOfKey_get (l : List (Bytes × Bytes)) (k : Bytes) (i : Nat)
    (h : idxOfKey l k = some i) : ∃ v, l[i]? = some (k, v) := by
  induction l generalizing i with
  | nil => simp [idxOfKey] at h
  | cons kv rest ih =>
    obtain ⟨a, b⟩ := kv
    by_cases hk : a = k
    · subst hk
      have h0 : i = 0 := by simpa [idxOfKey] using h.symm
      subst h0
      exact ⟨b, by simp⟩
    · have h2 : (idxOfKey rest k).map (· + 1) = some i := by
        simpa [idxOfKey, hk] using h
      obtain ⟨j, hj, rfl⟩ := Option.map_eq_some'.mp h2
      obtain ⟨v, hv⟩ := ih j hj
      exact ⟨v, by simpa using hv⟩

/- ------------------------------------------------------------------ -/
/- Helper lemmas about the binding operations.                        -/
/- ------------------------------------------------------------------ -/

theorem hdb_put_fst (db : DB) (k v : Bytes) :
    (hdb.put db k v).1 = {db with recs := putAssoc db.recs k v, tranLog := tc.logMut db k} :=
  rfl

theorem putList_recs (kvs : List (Bytes × Bytes)) (db : DB) :
    (hdb.putList db kvs).recs = kvs.foldl (fun l kv => putAssoc l kv.1 kv.2) db.recs := by
  induction kvs generalizing db with
  | nil => rfl
  | cons kv rest ih => simpa [hdb.putList, List.foldl_cons] using ih (hdb.put db kv.1 kv.2).1

theorem putList_replay (kvs : List (Bytes × Bytes)) (db : DB) (log : List UndoEntry)
    (h : db.tranLog = some log) :
    ∃ log2, (hdb.putList db kvs).tranLog = some log2 ∧
      log2.foldl undoOne (hdb.putList db kvs).recs = log.foldl undoOne db.recs := by
  induction kvs generalizing db log with
  | nil => exact ⟨log, h, rfl⟩
  | cons kv rest ih =>
    have hstep : (hdb.put db kv.1 kv.2).1.tranLog
        = some ((kv.1, lookupAssoc db.recs kv.1) :: log) := by
      simp [hdb_put_fst, tc.logMut, h]
    obtain ⟨log2, h2, hrepl⟩ := ih (hdb.put db kv.1 kv.2).1 _ hstep
    refine ⟨log2, by simpa [hdb.putList, List.foldl_cons] using h2, ?_⟩
    have : ((kv.1, lookupAssoc db.recs kv.1) :: log).foldl undoOne
        (hdb.put db kv.1 kv.2).1.recs = log.foldl undoOne db.recs := by
      simp [hdb_put_fst, List.foldl_cons, undoOne_putAssoc]
    calc log2.foldl undoOne (hdb.putList db (kv :: rest)).recs
        = log2.foldl undoOne (hdb.putList (hdb.put db kv.1 kv.2).1 rest).recs := by
          simp [hdb.putList, List.foldl_cons]
      _ = ((kv.1, lookupAssoc db.recs kv.1) :: log).foldl undoOne
            (hdb.put db kv.1 kv.2).1.recs := hrepl
      _ = log.foldl undoOne db.recs := this

theorem lookup_foldl_put_notmem (kvs : List (Bytes × Bytes)) (l0 : List (Bytes × Bytes))
    (k : Bytes) (h : k ∉ kvs.map Prod.fst) :
    lookupAssoc (kvs.foldl (fun l kv => putAssoc l kv.1 kv.2) l0) k = lookupAssoc l0 k := by
  induction kvs generalizing l0 with
  | nil => rfl
  | cons kv rest ih =>
    have hne : k ≠ kv.1 := by
      intro hk
      exact h (by simp [hk])
    have hrest : k ∉ rest.map Prod.fst := by
      intro hk
      exact h (by simp [hk])
    simpa [List.foldl_cons, ih _ hrest] using lookup_putAssoc_ne l0 kv.1 k kv.2 hne

theorem lookup_foldl_put_mem (kvs : List (Bytes × Bytes)) (l0 : List (Bytes × Bytes))
    (k v : Bytes) (hnd : (kvs.map Prod.fst).Nodup) (hmem : (k, v) ∈ kvs) :
    lookupAssoc (kvs.foldl (fun l kv => putAssoc l kv.1 kv.2) l0) k = some v := by
  induction kvs generalizing l0 with
  | nil => simp at hmem
  | cons kv rest ih =>
    have hnd2 : (rest.map Prod.fst).Nodup := (List.nodup_cons.mp hnd).2
    rcases List.mem_cons.mp hmem with hh | hh
    · have hnot : kv.1 ∉ rest.map Prod.fst := (List.nodup_cons.mp hnd).1
      have : lookupAssoc (rest.foldl (fun l kv2 => putAssoc l kv2.1 kv2.2)
          (putAssoc l0 kv.1 kv.2)) kv.1 = some kv.2 := by
        simpa [lookup_putAssoc_self] using
          lookup_foldl_put_notmem rest (putAssoc l0 kv.1 kv.2) kv.1 hnot
      subst hh
      simpa [List.foldl_cons] using this
    · simpa [List.foldl_cons] using ih (putAssoc l0 kv.1 kv.2) hnd2 hh

/- ------------------------------------------------------------------ -/
/- Claim theorems.                                                    -/
/- ------------------------------------------------------------------ -/

/-- Claim C1: for every key not currently stored, get fails with NotFound (the
binding raises KeyError); and for every key and value, after put(k, v)
succeeds, get(k) returns v. -/
theorem c1_get_after_put (db : DB) (k k2 v : Bytes)
    (h : lookupAssoc db.recs k = none) :
    hdb.get db k = Res.exn (PyErr.keyError k) ∧
    (hdb.put db k2 v).2 = Res.ok true ∧
    hdb.get (hdb.put db k2 v).1 k2 = Res.ok v := by
  refine ⟨?_, rfl, ?_⟩
  · simp [hdb.get, tc.hdb_get, util.serialize_obj, h]
  · simp [hdb.get, tc.hdb_get, hdb_put_fst, util.serialize_obj, util.deserialize_obj,
      lookup_putAssoc_self]

/-- Claim C1 witness: the theorem applied to the empty handle, key [1] and
value [2]. -/
theorem c1_witness :
    hdb.get (⟨[], none, none, ECode.success⟩ : DB) [1] = Res.exn (PyErr.keyError [1]) ∧
    (hdb.put (⟨[], none, none, ECode.success⟩ : DB) [1] [2]).2 = Res.ok true ∧
    hdb.get (hdb.put (⟨[], none, none, ECode.success⟩ : DB) [1] [2]).1 [1] = Res.ok [2] :=
  c1_get_after_put ⟨[], none, none, ECode.success⟩ [1] [1] [2] rfl

/-- Claim C3: putkeep on a present key returns false, raises no error and
leaves the handle (hence the stored record) unchanged, so get still returns
the first value; putkeep on an absent key inserts the value. -/
theorem c3_putkeep_keeps (db : DB) (k v1 v2 k2 v : Bytes)
    (h1 : lookupAssoc db.recs k = some v1) (h2 : lookupAssoc db.recs k2 = none) :
    ((hdb.putkeep db k v2).2 = false ∧ (hdb.putkeep db k v2).1 = db ∧
      hdb.get (hdb.putkeep db k v2).1 k = Res.ok v1) ∧
    ((hdb.putkeep db k2 v).2 = true ∧
      hdb.get (hdb.putkeep db k2 v).1 k2 = Res.ok v) := by
  constructor
  · refine ⟨?_, ?_, ?_⟩ <;>
      simp [hdb.putkeep, tc.hdb_putkeep, util.serialize_obj, h1, hdb.get, tc.hdb_get,
        util.deserialize_obj]
  · constructor
    · simp [hdb.putkeep, tc.hdb_putkeep, util.serialize_obj, h2]
    · simp [hdb.putkeep, tc.hdb_putkeep, util.serialize_obj, h2, hdb.get, tc.hdb_get,
        util.deserialize_obj, lookup_putAssoc_self]

/-- Claim C3 witness: the theorem applied to a handle holding key [3] with
value [4]. -/
theorem c3_witness :
    ((hdb.putkeep (⟨[([3], [4])], none, none, ECode.success⟩ : DB) [3] [9]).2 = false ∧
      (hdb.putkeep (⟨[([3], [4])], none, none, ECode.success⟩ : DB) [3] [9]).1
        = (⟨[([3], [4])], none, none, ECode.success⟩ : DB) ∧
      hdb.get (hdb.putkeep (⟨[([3], [4])], none, none, ECode.success⟩ : DB) [3] [9]).1 [3]
        = Res.ok [4]) ∧
    ((hdb.putkeep (⟨[([3], [4])], none, none, ECode.success⟩ : DB) [5] [6]).2 = true ∧
      hdb.get (hdb.putkeep (⟨[([3], [4])], none, none, ECode.success⟩ : DB) [5] [6]).1 [5]
        = Res.ok [6]) :=
  c3_putkeep_keeps ⟨[([3], [4])], none, none, ECode.success⟩ [3] [4] [9] [5] [6] rfl rfl

/-- Claim C4 (code bug in hdb.add_int, src/tcdb/hdb.py lines 381-388): for an
absent key the engine creates the record with the delta as its initial value
and returns the new value, as the claim states; but when that value is 0 the
binding's "if not result" check treats the successful result as a failure and
raises TCException even though the record was created.  With a nonzero delta
the call behaves exactly as claimed. -/
theorem c4_addint_truthiness_bug :
    (hdb.add_int (⟨[], none, none, ECode.success⟩ : DB) [7] 0).2
      = Res.exn (PyErr.tcException ECode.success) ∧
    lookupAssoc (hdb.add_int (⟨[], none, none, ECode.success⟩ : DB) [7] 0).1.recs [7]
      = some (tc.encodeInt 0) ∧
    (hdb.add_int (⟨[], none, none, ECode.success⟩ : DB) [7] 5).2 = Res.ok 5 := by
  decide

/-- Claim C5: fwmkeys with no matching stored key returns the empty sequence
and signals no error. -/
theorem c5_fwmkeys_no_match (db : DB) (pre : Bytes)
    (h : ∀ kv ∈ db.recs, pre.isPrefixOf kv.1 = false) :
    (hdb.fwmkeys db pre).2 = Res.ok [] := by
  have hf : (db.recs.map Prod.fst).filter (fun k => pre.isPrefixOf k) = [] := by
    rw [List.filter_eq_nil_iff]
    intro a ha
    obtain ⟨kv, hkv, rfl⟩ := List.mem_map.mp ha
    simp [h kv hkv]
  simp [hdb.fwmkeys, tc.hdb_fwmkeys, util.serialize_obj, util.deserialize_objs, hf]

/-- Claim C5 witness: the theorem applied to a handle holding only key [1],
asked for keys starting with byte 2. -/
theorem c5_witness :
    (hdb.fwmkeys (⟨[([1], [2])], none, none, ECode.success⟩ : DB) [2]).2 = Res.ok [] :=
  c5_fwmkeys_no_match ⟨[([1], [2])], none, none, ECode.success⟩ [2] (by decide)

/-- Claim C8: vanish is idempotent — each of two successive vanish calls
returns normally and leaves the record count at 0 and the key iteration
empty. -/
theorem c8_vanish_idempotent (db : DB) :
    (hdb.vanish db).2 = Res.ok true ∧
    hdb.len (hdb.vanish db).1 = 0 ∧
    hdb.keysList (hdb.vanish db).1 = Res.ok [] ∧
    (hdb.vanish (hdb.vanish db).1).2 = Res.ok true ∧
    hdb.len (hdb.vanish (hdb.vanish db).1).1 = 0 ∧
    hdb.keysList (hdb.vanish (hdb.vanish db).1).1 = Res.ok [] :=
  ⟨rfl, rfl, rfl, rfl, rfl, rfl⟩

/- Shared transaction helper lemmas (used by the C2 and C7 theorems). -/

theorem putList_active (db1 : DB) (kvs : List (Bytes × Bytes)) (h : db1.tranLog = some []) :
    ∃ log2, (hdb.putList db1 kvs).tranLog = some log2 ∧
      log2.foldl undoOne (hdb.putList db1 kvs).recs = db1.recs := by
  obtain ⟨log2, ha, hb⟩ := putList_replay kvs db1 [] h
  exact ⟨log2, ha, by simpa using hb⟩

theorem putList_lookup (db1 : DB) (kvs : List (Bytes × Bytes)) (kv : Bytes × Bytes)
    (hNodup : (kvs.map Prod.fst).Nodup) (hkv : kv ∈ kvs) :
    lookupAssoc (hdb.putList db1 kvs).recs kv.1 = some kv.2 := by
  rw [putList_recs]
  exact lookup_foldl_put_mem kvs db1.recs kv.1 kv.2 hNodup hkv

/-- Claim C2: transactions are atomic.  Starting from a handle with no open
transaction, begin a transaction and perform the puts of kvs: aborting
restores the pre-transaction records exactly, so every key that was absent
before is absent again (get raises KeyError); committing instead leaves every
put key present with its put value. -/
theorem c2_transaction_atomicity (db : DB) (kvs : List (Bytes × Bytes))
    (hIdle : db.tranLog = none)
    (hAbsent : ∀ kv ∈ kvs, lookupAssoc db.recs kv.1 = none)
    (hNodup : (kvs.map Prod.fst).Nodup) :
    ((hdb.tranabort (hdb.putList (hdb.tranbegin db).1 kvs)).1.recs = db.recs ∧
      ∀ kv ∈ kvs, hdb.get (hdb.tranabort (hdb.putList (hdb.tranbegin db).1 kvs)).1 kv.1
        = Res.exn (PyErr.keyError kv.1)) ∧
    (∀ kv ∈ kvs, hdb.get (hdb.trancommit (hdb.putList (hdb.tranbegin db).1 kvs)).1 kv.1
      = Res.ok kv.2) := by
  have hb1 : (hdb.tranbegin db).1 = {db with tranLog := some []} := by
    simp [hdb.tranbegin, tc.hdb_tranbegin, hIdle]
  obtain ⟨log2, hlog2, hrepl⟩ := putList_active (hdb.tranbegin db).1 kvs (by rw [hb1])
  have habortrecs : (hdb.tranabort (hdb.putList (hdb.tranbegin db).1 kvs)).1.recs
      = db.recs := by
    simp only [hdb.tranabort, tc.hdb_tranabort, hlog2]
    rw [hrepl, hb1]
  refine ⟨⟨habortrecs, ?_⟩, ?_⟩
  · intro kv hkv
    simp [hdb.get, tc.hdb_get, util.serialize_obj, habortrecs, hAbsent kv hkv]
  · intro kv hkv
    have hlook : lookupAssoc (hdb.putList (hdb.tranbegin db).1 kvs).recs kv.1 = some kv.2 :=
      putList_lookup (hdb.tranbegin db).1 kvs kv hNodup hkv
    simp only [hdb.trancommit, tc.hdb_trancommit, hlog2]
    simp [hdb.get, tc.hdb_get, util.serialize_obj, util.deserialize_obj, hlook]

/-- Claim C2 witness: the theorem applied to the empty handle and one put of
value [10] at key [1]. -/
theorem c2_witness :
    ((hdb.tranabort (hdb.putList (hdb.tranbegin (⟨[], none, none, ECode.success⟩ : DB)).1
        [([1], [10])])).1.recs = [] ∧
      ∀ kv ∈ [(([1] : Bytes), ([10] : Bytes))],
        hdb.get (hdb.tranabort (hdb.putList
          (hdb.tranbegin (⟨[], none, none, ECode.success⟩ : DB)).1 [([1], [10])])).1 kv.1
          = Res.exn (PyErr.keyError kv.1)) ∧
    (∀ kv ∈ [(([1] : Bytes), ([10] : Bytes))],
      hdb.get (hdb.trancommit (hdb.putList
        (hdb.tranbegin (⟨[], none, none, ECode.success⟩ : DB)).1 [([1], [10])])).1 kv.1
        = Res.ok kv.2) :=
  c2_transaction_atomicity ⟨[], none, none, ECode.success⟩ [([1], [10])] rfl
    (by decide) (by decide)

/-- Claim C6 counterexample: for a key that is already stored the claim
fails — the handle held one record before put(k, v); out(k) then leaves zero
records, not the pre-put count. -/
theorem c6_counterexample :
    hdb.len ((hdb.out (hdb.put (⟨[([0], [9])], none, none, ECode.success⟩ : DB) [0] [1]).1
      [0]).1) ≠ hdb.len (⟨[([0], [9])], none, none, ECode.success⟩ : DB) := by
  decide

/-- Claim C6 as amended: for every key k not currently stored and value v,
put(k, v) then out(k) leaves get(k) failing with NotFound (KeyError) and
restores the record count to its pre-put value; and out on an absent key
fails with NotFound.  (For a key already stored the original claim fails: put
overwrites the existing record, so out leaves the count one below its pre-put
value, as the counterexample shows.) -/
theorem c6_put_out_fresh (db : DB) (k v : Bytes)
    (h : lookupAssoc db.recs k = none) :
    hdb.get ((hdb.out (hdb.put db k v).1 k).1) k = Res.exn (PyErr.keyError k) ∧
    hdb.len ((hdb.out (hdb.put db k v).1 k).1) = hdb.len db ∧
    (hdb.out db k).2 = Res.exn (PyErr.tcException ECode.notFound) := by
  have hrecs : ((hdb.out (hdb.put db k v).1 k).1).recs = db.recs := by
    simp [hdb.out, tc.hdb_out, util.serialize_obj, hdb_put_fst, lookup_putAssoc_self,
      outAssoc_putAssoc_new db.recs k v h]
  refine ⟨?_, ?_, ?_⟩
  · simp [hdb.get, tc.hdb_get, util.serialize_obj, hrecs, h]
  · simp [hdb.len, tc.hdb_rnum, hrecs]
  · simp [hdb.out, tc.hdb_out, tc.hdb_ecode, util.serialize_obj, h]

/-- Claim C6 witness: the amended theorem applied to the empty handle, key
[1] and value [2]. -/
theorem c6_witness :
    hdb.get ((hdb.out (hdb.put (⟨[], none, none, ECode.success⟩ : DB) [1] [2]).1 [1]).1) [1]
      = Res.exn (PyErr.keyError [1]) ∧
    hdb.len ((hdb.out (hdb.put (⟨[], none, none, ECode.success⟩ : DB) [1] [2]).1 [1]).1)
      = hdb.len (⟨[], none, none, ECode.success⟩ : DB) ∧
    (hdb.out (⟨[], none, none, ECode.success⟩ : DB) [1]).2
      = Res.exn (PyErr.tcException ECode.notFound) :=
  c6_put_out_fresh ⟨[], none, none, ECode.success⟩ [1] [2] rfl

/-- Claim C7: the handle used as a context manager is a scoped transaction
guard: entering begins a transaction; performing the puts of kvs inside the
block and exiting normally (no exception) commits, so the puts persist;
exiting with an exception aborts, restoring the pre-block records exactly. -/
theorem c7_with_scoped_guard (db : DB) (kvs : List (Bytes × Bytes))
    (hIdle : db.tranLog = none) (hNodup : (kvs.map Prod.fst).Nodup) :
    ((hdb.enterW db).2 = Res.ok () ∧ (hdb.enterW db).1.tranLog = some []) ∧
    ((hdb.exitW (hdb.putList (hdb.enterW db).1 kvs) none).1.tranLog = none ∧
      ∀ kv ∈ kvs, hdb.get (hdb.exitW (hdb.putList (hdb.enterW db).1 kvs) none).1 kv.1
        = Res.ok kv.2) ∧
    ((hdb.exitW (hdb.putList (hdb.enterW db).1 kvs) (some ())).1.tranLog = none ∧
      (hdb.exitW (hdb.putList (hdb.enterW db).1 kvs) (some ())).1.recs = db.recs) := by
  have hb1 : (hdb.enterW db).1 = {db with tranLog := some []} := by
    simp [hdb.enterW, hdb.tranbegin, tc.hdb_tranbegin, hIdle]
  obtain ⟨log2, hlog2, hrepl⟩ := putList_active (hdb.enterW db).1 kvs (by rw [hb1])
  refine ⟨⟨?_, by rw [hb1]⟩, ⟨?_, ?_⟩, ⟨?_, ?_⟩⟩
  · simp [hdb.enterW, hdb.tranbegin, tc.hdb_tranbegin, hIdle]
  · simp only [hdb.exitW, hdb.trancommit, tc.hdb_trancommit, hlog2]
  · intro kv hkv
    have hlook : lookupAssoc (hdb.putList (hdb.enterW db).1 kvs).recs kv.1 = some kv.2 :=
      putList_lookup (hdb.enterW db).1 kvs kv hNodup hkv
    simp only [hdb.exitW, hdb.trancommit, tc.hdb_trancommit, hlog2]
    simp [hdb.get, tc.hdb_get, util.serialize_obj, util.deserialize_obj, hlook]
  · simp only [hdb.exitW, hdb.tranabort, tc.hdb_tranabort, hlog2]
  · simp only [hdb.exitW, hdb.tranabort, tc.hdb_tranabort, hlog2]
    rw [hrepl, hb1]

/-- Claim C7 witness: the theorem applied to the empty handle and one put of
value [10] at key [1]. -/
theorem c7_witness :
    ((hdb.enterW (⟨[], none, none, ECode.success⟩ : DB)).2 = Res.ok () ∧
      (hdb.enterW (⟨[], none, none, ECode.success⟩ : DB)).1.tranLog = some []) ∧
    ((hdb.exitW (hdb.putList (hdb.enterW (⟨[], none, none, ECode.success⟩ : DB)).1
        [([1], [10])]) none).1.tranLog = none ∧
      ∀ kv ∈ [(([1] : Bytes), ([10] : Bytes))],
        hdb.get (hdb.exitW (hdb.putList (hdb.enterW (⟨[], none, none, ECode.success⟩ : DB)).1
          [([1], [10])]) none).1 kv.1 = Res.ok kv.2) ∧
    ((hdb.exitW (hdb.putList (hdb.enterW (⟨[], none, none, ECode.success⟩ : DB)).1
        [([1], [10])]) (some ())).1.tranLog = none ∧
      (hdb.exitW (hdb.putList (hdb.enterW (⟨[], none, none, ECode.success⟩ : DB)).1
        [([1], [10])]) (some ())).1.recs = []) :=
  c7_with_scoped_guard ⟨[], none, none, ECode.success⟩ [([1], [10])] rfl (by decide)

/-- Claim C9: membership testing is not read-only on cursor state: k in db
calls hdb_iterinit2, which for a stored key returns true and moves the shared
cursor to that key's position — wherever a running iteration had left the
cursor — so the next iternext call continues from k's record. -/
theorem c9_contains_repositions (db : DB) (k : Bytes) (i : Nat)
    (h : idxOfKey db.recs k = some i) :
    (hdb.contains db k).2 = true ∧
    (hdb.contains db k).1.cursor = some i ∧
    (tc.hdb_iternext (hdb.contains db k).1).2 = some k ∧
    (∀ c : Option Nat, (hdb.contains {db with cursor := c} k).1.cursor = some i) := by
  obtain ⟨v, hv⟩ := idxOfKey_get db.recs k i h
  refine ⟨?_, ?_, ?_, ?_⟩
  · simp [hdb.contains, tc.hdb_iterinit2, util.serialize_obj, h]
  · simp [hdb.contains, tc.hdb_iterinit2, util.serialize_obj, h]
  · simp [hdb.contains, tc.hdb_iterinit2, util.serialize_obj, h, tc.hdb_iternext, hv]
  · intro c
    simp [hdb.contains, tc.hdb_iterinit2, util.serialize_obj, h]

/-- Claim C9 witness: the theorem applied to a handle holding key [5] at
position 0, with the iteration cursor initially past it. -/
theorem c9_witness :
    (hdb.contains (⟨[([5], [6])], none, some 1, ECode.success⟩ : DB) [5]).2 = true ∧
    (hdb.contains (⟨[([5], [6])], none, some 1, ECode.success⟩ : DB) [5]).1.cursor = some 0 ∧
    (tc.hdb_iternext (hdb.contains (⟨[([5], [6])], none, some 1, ECode.success⟩ : DB)
      [5]).1).2 = some [5] ∧
    (∀ c : Option Nat, (hdb.contains
      {(⟨[([5], [6])], none, some 1, ECode.success⟩ : DB) with cursor := c} [5]).1.cursor
        = some 0) :=
  c9_contains_repositions ⟨[([5], [6])], none, some 1, ECode.success⟩ [5] 0 (by decide)

/-- Claim C10: hdb.open with no explicit mode uses the default omode
OWRITER|OCREAT (= 6), so on a path naming no existing file the default open
creates the file and succeeds instead of failing; and on a missing file the
NotFound failure happens exactly when the caller's mode lacks the OCREAT
bit. -/
theorem c10_open_default_mode (omode : Nat) :
    OWRITER ||| OCREAT = 6 ∧
    hdb.openDbDefault false = Res.ok () ∧
    tc.hdb_open false (OWRITER ||| OCREAT) = OpenOutcome.createdNew ∧
    (tc.hdb_open false omode = OpenOutcome.failed ECode.notFound
      ↔ omode.testBit 2 = false) := by
  refine ⟨by decide, by decide, by decide, ?_⟩
  cases h2 : omode.testBit 2 <;> cases h1 : omode.testBit 1 <;>
    simp [tc.hdb_open, h2, h1]

/-- Claim C10 witness: the theorem applied to the reader-only open mode. -/
theorem c10_witness :
    OWRITER ||| OCREAT = 6 ∧
    hdb.openDbDefault false = Res.ok () ∧
    tc.hdb_open false (OWRITER ||| OCREAT) = OpenOutcome.createdNew ∧
    (tc.hdb_open false OREADER = OpenOutcome.failed ECode.notFound
      ↔ Nat.testBit OREADER 2 = false) :=
  c10_open_default_mode OREADER
